import Mathlib

/-!
Shallow embedding of the mysql-mcp-server core (single TypeScript file):
the query validator, the connection manager, the tool / resource / prompt
handlers, and the request router.

Modelling conventions:
* Driver rows are ordered key/value pairs of strings (`Row`); the driver and
  the database content are a fixed oracle (`World`): `exec` maps a statement
  string to its result, `connectResult` is the outcome of
  `mysql.createConnection`.  Holding the oracle fixed models "database state
  held fixed between calls".
* Stateful code is explicit state passing over `DBState` (the
  `DatabaseConnection.connection` field, plus a ghost counter of driver
  connections ever created).  Each effectful operation also returns the list
  of statement strings that were sent to the database, in order.
* JavaScript exceptions are `Except.error` carrying the message string; a
  `try/catch` that renders the error is a `match` turning `.error` into an
  error envelope.
* `ResponseFormatter` wraps payloads into text envelopes by string templates
  and `JSON.stringify`; the serialization is injective and no property below
  inspects the rendered text, so the model keeps the payloads structured
  (`ToolResult`, `ResourcePayload`) instead of serialized.
-/

namespace MCP

/-- A result row: a JavaScript object modelled as ordered key/value pairs. -/
abbrev Row := List (String × String)

/-- Character class of the JavaScript regex `\s` (also the set stripped by
`String.prototype.trim`): ASCII whitespace, NBSP, and the Unicode space and
line separators. -/
def isJsWS (c : Char) : Bool :=
  c.toNat = 0x20 || c.toNat = 0x09 || c.toNat = 0x0A || c.toNat = 0x0B ||
  c.toNat = 0x0C || c.toNat = 0x0D || c.toNat = 0xA0 || c.toNat = 0x1680 ||
  (0x2000 ≤ c.toNat && c.toNat ≤ 0x200A) || c.toNat = 0x2028 ||
  c.toNat = 0x2029 || c.toNat = 0x202F || c.toNat = 0x205F ||
  c.toNat = 0x3000 || c.toNat = 0xFEFF

/-- JavaScript line terminators, which `.` in a regex does not match. -/
def isLineTerm (c : Char) : Bool :=
  c.toNat = 0x0A || c.toNat = 0x0D || c.toNat = 0x2028 || c.toNat = 0x2029

/-- ASCII lower-casing: the case folding performed by a non-unicode `/i`
regex on the ASCII pattern letters used here (non-ASCII characters never
fold onto ASCII letters in that mode). -/
def lowerChar (c : Char) : Char :=
  match c with
  | 'A' => 'a' | 'B' => 'b' | 'C' => 'c' | 'D' => 'd' | 'E' => 'e'
  | 'F' => 'f' | 'G' => 'g' | 'H' => 'h' | 'I' => 'i' | 'J' => 'j'
  | 'K' => 'k' | 'L' => 'l' | 'M' => 'm' | 'N' => 'n' | 'O' => 'o'
  | 'P' => 'p' | 'Q' => 'q' | 'R' => 'r' | 'S' => 's' | 'T' => 't'
  | 'U' => 'u' | 'V' => 'v' | 'W' => 'w' | 'X' => 'x' | 'Y' => 'y'
  | 'Z' => 'z'
  | c => c

/-- `String.prototype.trim`: strip `isJsWS` characters from both ends. -/
def trimList (l : List Char) : List Char :=
  ((l.dropWhile isJsWS).reverse.dropWhile isJsWS).reverse

/-- Match a literal at the head of the input; return the rest on success. -/
def litP (lit s : List Char) : Option (List Char) :=
  if lit.isPrefixOf s then some (s.drop lit.length) else none

/-- Regex `\s+` at the head of the input, maximal munch.  Every pattern
token following `\s+` below starts with a non-whitespace character, so
taking the maximal run is complete. -/
def wsPlusP (s : List Char) : Option (List Char) :=
  match s with
  | [] => none
  | c :: r => if isJsWS c then some (r.dropWhile isJsWS) else none

/-- Regex `\s*` at the head of the input, maximal munch (complete for the
same reason as `wsPlusP`). -/
def wsStarP (s : List Char) : Option (List Char) :=
  some (s.dropWhile isJsWS)

/-- Regex `.*` followed by the predicate `p`: try `p` at every split point,
where `.` may consume any character except a line terminator. -/
def dotStarThen (p : List Char → Bool) : List Char → Bool
  | [] => p []
  | c :: r => p (c :: r) || (!isLineTerm c && dotStarThen p r)

/-- Unanchored search: does `p` hold at some suffix of the input?  This is
what `RegExp.prototype.test` does with an unanchored pattern. -/
def existsAt (p : List Char → Bool) : List Char → Bool
  | [] => p []
  | c :: r => p (c :: r) || existsAt p r

/-- Substring search for a literal (the whole of the `/TRUNCATE/i` pattern,
and a building block for the lemmas below). -/
def containsSeq (pat l : List Char) : Bool :=
  existsAt (fun s => pat.isPrefixOf s) l

/-- Pattern `/DROP\s+DATABASE/i` at one position (input already folded by
`lowerChar`). -/
def dropDbAt (s : List Char) : Bool :=
  ((litP "drop".toList s).bind (fun r =>
    (wsPlusP r).bind (fun r2 => litP "database".toList r2))).isSome

/-- Pattern `/DROP\s+TABLE/i` at one position. -/
def dropTableAt (s : List Char) : Bool :=
  ((litP "drop".toList s).bind (fun r =>
    (wsPlusP r).bind (fun r2 => litP "table".toList r2))).isSome

/-- Tail `1\s*=\s*1` of the delete pattern at one position. -/
def oneEqOneAt (s : List Char) : Bool :=
  ((litP "1".toList s).bind (fun r =>
    (wsStarP r).bind (fun r2 =>
      (litP "=".toList r2).bind (fun r3 =>
        (wsStarP r3).bind (fun r4 => litP "1".toList r4))))).isSome

/-- Pattern `/DELETE\s+FROM.*WHERE.*1\s*=\s*1/i` at one position. -/
def deleteFromAt (s : List Char) : Bool :=
  match ((litP "delete".toList s).bind (fun r =>
    (wsPlusP r).bind (fun r2 => litP "from".toList r2))) with
  | none => false
  | some r =>
    dotStarThen (fun t =>
      match litP "where".toList t with
      | none => false
      | some r2 => dotStarThen oneEqOneAt r2) r

/-- The DANGEROUS_PATTERNS test of QueryValidator: the four regexes, each
searched anywhere in the (already lower-folded) input. -/
def dangerousMatch (l : List Char) : Bool :=
  existsAt dropDbAt l || existsAt dropTableAt l ||
  existsAt deleteFromAt l || containsSeq "truncate".toList l

/-- Character class `[a-zA-Z0-9_]` of the identifier regex. -/
def isIdentChar (c : Char) : Bool :=
  ('a' ≤ c && c ≤ 'z') || ('A' ≤ c && c ≤ 'Z') ||
  ('0' ≤ c && c ≤ '9') || c = '_'

namespace QueryValidator

/-- QueryValidator.validate: trim; reject the empty query; reject a query
matching any dangerous pattern (case-insensitively). -/
def validate (query : String) : Except String Unit :=
  let normalizedQuery := trimList query.toList
  if normalizedQuery.isEmpty then
    .error "Query não pode estar vazia"
  else if dangerousMatch (normalizedQuery.map lowerChar) then
    .error "Query contém operações potencialmente perigosas"
  else
    .ok ()

/-- QueryValidator.sanitizeTableName: the regex `^[a-zA-Z0-9_]+$` accepts
exactly the non-empty all-identifier-character strings; on success the name
is returned unchanged. -/
def sanitizeTableName (tableName : String) : Except String String :=
  if !tableName.toList.isEmpty && tableName.toList.all isIdentChar then
    .ok tableName
  else
    .error "Nome de tabela inválido"

end QueryValidator

/-- The driver / database oracle: the outcome of `mysql.createConnection`
and, for each statement string, the rows it yields (or the driver error it
raises).  A fixed `World` models a database whose state does not change
between the calls under consideration. -/
structure World where
  connectResult : Except String Unit
  exec : String → Except String (List Row)

/-- The mutable state of `DatabaseConnection`: the `connection` field (the
live handle id, or `none`), plus a ghost count of driver connections ever
created (used to state that no second connection is created). -/
structure DBState where
  connection : Option Nat
  created : Nat
deriving DecidableEq, Repr

namespace DatabaseConnection

/-- DatabaseConnection.connect: early return if a connection exists;
otherwise call the driver, storing the new handle on success and raising
`Falha na conexão: ...` on failure. -/
def connect (w : World) (st : DBState) : Except String Unit × DBState :=
  match st.connection with
  | some _ => (.ok (), st)
  | none =>
    match w.connectResult with
    | .ok _ => (.ok (), ⟨some st.created, st.created + 1⟩)
    | .error m => (.error ("Falha na conexão: " ++ m), st)

/-- DatabaseConnection.execute: raises `Conexão não estabelecida` when no
connection is live; otherwise forwards the statement to the driver.  The
third component is the list of statements that reached the database (the
statement is recorded even when the driver then errors).  The handlers
never pass `params`, so the parameter list is omitted. -/
def execute (w : World) (st : DBState) (query : String) :
    Except String (List Row) × DBState × List String :=
  match st.connection with
  | none => (.error "Conexão não estabelecida", st, [])
  | some _ => (w.exec query, st, [query])

/-- DatabaseConnection.useDatabase: interpolates the database name into a
``USE `...` `` statement and executes it — note the absence of any
validation of `database`. -/
def useDatabase (w : World) (st : DBState) (database : String) :
    Except String (List Row) × DBState × List String :=
  execute w st ("USE `" ++ database ++ "`")

end DatabaseConnection

/-- Output of `ResponseFormatter` as used by the tool handler, kept
structured: `queryResult` and `tableStructure` are the success envelopes,
`error` the error envelope (rendered with the `❌ Erro:` prefix in the
source; the constructors are injective into the rendered text and no
property below inspects the text). -/
inductive ToolResult where
  | queryResult (query : String) (rows : List Row)
  | tableStructure (name : String) (rows : List Row)
  | error (message : String)
deriving DecidableEq, Repr

/-- JavaScript truthiness of an optional string argument (`undefined` and
`""` are falsy), as in `if (database)`. -/
def strTruthy : Option String → Bool
  | none => false
  | some s => !s.isEmpty

/-- The `if (database) await this.db.useDatabase(database)` step shared by
both tool operations. -/
def maybeUseDatabase (w : World) (st : DBState) (database : Option String) :
    Except String Unit × DBState × List String :=
  match database with
  | some d =>
    if d.isEmpty then (.ok (), st, [])
    else
      match DatabaseConnection.useDatabase w st d with
      | (.error m, st1, t) => (.error m, st1, t)
      | (.ok _, st1, t) => (.ok (), st1, t)
  | none => (.ok (), st, [])

namespace ToolsHandler

/-- ToolsHandler.executeQuery: validate, optional database switch, execute,
format; any raised error is caught and rendered as an error envelope. -/
def executeQuery (w : World) (st : DBState) (query : String)
    (database : Option String) : ToolResult × DBState × List String :=
  match QueryValidator.validate query with
  | .error m => (.error m, st, [])
  | .ok _ =>
    match maybeUseDatabase w st database with
    | (.error m, st1, t1) => (.error m, st1, t1)
    | (.ok _, st1, t1) =>
      match DatabaseConnection.execute w st1 query with
      | (.error m, st2, t2) => (.error m, st2, t1 ++ t2)
      | (.ok rows, st2, t2) => (.queryResult query rows, st2, t1 ++ t2)

/-- ToolsHandler.describeTable: sanitize the table name (before any other
step), optional database switch, ``DESCRIBE `name` ``, format; any raised
error is caught and rendered as an error envelope. -/
def describeTable (w : World) (st : DBState) (tableName : String)
    (database : Option String) : ToolResult × DBState × List String :=
  match QueryValidator.sanitizeTableName tableName with
  | .error m => (.error m, st, [])
  | .ok sanitizedName =>
    match maybeUseDatabase w st database with
    | (.error m, st1, t1) => (.error m, st1, t1)
    | (.ok _, st1, t1) =>
      match DatabaseConnection.execute w st1
          ("DESCRIBE `" ++ sanitizedName ++ "`") with
      | (.error m, st2, t2) => (.error m, st2, t1 ++ t2)
      | (.ok rows, st2, t2) => (.tableStructure sanitizedName rows, st2, t1 ++ t2)

end ToolsHandler

/-- Payload of a resource contents envelope, kept structured (the source
serializes it with `JSON.stringify`): the raw row list for the two
listings, and the accumulated `{name, columns}` list for the schema. -/
inductive ResourcePayload where
  | rows (rows : List Row)
  | schema (tables : List (String × List Row))
deriving DecidableEq, Repr

/-- A resource response: the `contents` array with its `uri` and payload. -/
structure ResourceContents where
  uri : String
  payload : ResourcePayload
deriving DecidableEq, Repr

/-- `Object.values(row)[0]` interpolated into a template string: the first
value of the row object, or the string `undefined` for an empty object
(JavaScript coerces `undefined` to that string when interpolating). -/
def firstValStr (r : Row) : String :=
  match r with
  | [] => "undefined"
  | (_, v) :: _ => v

namespace ResourcesHandler

/-- ResourcesHandler.getDatabases: `SHOW DATABASES`, no local catch —
driver errors propagate. -/
def getDatabases (w : World) (st : DBState) :
    Except String ResourceContents × DBState × List String :=
  match DatabaseConnection.execute w st "SHOW DATABASES" with
  | (.error m, st1, t) => (.error m, st1, t)
  | (.ok rows, st1, t) => (.ok ⟨"mysql://databases", .rows rows⟩, st1, t)

/-- ResourcesHandler.getTables: `SHOW TABLES`, no local catch. -/
def getTables (w : World) (st : DBState) :
    Except String ResourceContents × DBState × List String :=
  match DatabaseConnection.execute w st "SHOW TABLES" with
  | (.error m, st1, t) => (.error m, st1, t)
  | (.ok rows, st1, t) => (.ok ⟨"mysql://tables", .rows rows⟩, st1, t)

/-- The `for (const table of tables)` loop of getSchema: one ``DESCRIBE``
per listed table, accumulating `{name, columns}` in order. -/
def getSchemaLoop (w : World) (st : DBState) :
    List Row → Except String (List (String × List Row)) × DBState × List String
  | [] => (.ok [], st, [])
  | table :: rest =>
    match DatabaseConnection.execute w st
        ("DESCRIBE `" ++ firstValStr table ++ "`") with
    | (.error m, st1, t) => (.error m, st1, t)
    | (.ok columns, st1, t) =>
      match getSchemaLoop w st1 rest with
      | (.error m, st2, t2) => (.error m, st2, t ++ t2)
      | (.ok tl, st2, t2) =>
        (.ok ((firstValStr table, columns) :: tl), st2, t ++ t2)

/-- ResourcesHandler.getSchema: `SHOW TABLES`, then the per-table loop;
no local catch. -/
def getSchema (w : World) (st : DBState) :
    Except String ResourceContents × DBState × List String :=
  match DatabaseConnection.execute w st "SHOW TABLES" with
  | (.error m, st1, t) => (.error m, st1, t)
  | (.ok tables, st1, t) =>
    match getSchemaLoop w st1 tables with
    | (.error m, st2, t2) => (.error m, st2, t ++ t2)
    | (.ok ts, st2, t2) => (.ok ⟨"mysql://schema", .schema ts⟩, st2, t ++ t2)

end ResourcesHandler

/-- A prompt declaration as listed by `PromptsHandler.getPrompts`. -/
structure PromptDecl where
  name : String
  description : String
  requiredArgs : List String
deriving DecidableEq, Repr

/-- One message of a prompt result. -/
structure PromptMessage where
  role : String
  text : String
deriving DecidableEq, Repr

/-- A prompt result: description plus messages. -/
structure PromptResult where
  description : String
  messages : List PromptMessage
deriving DecidableEq, Repr

/-- The `arguments` object of a get-prompt request, as key/value pairs. -/
abbrev PromptArgs := List (String × String)

/-- Property access `args?.key`: `none` when the object is absent or the
key missing. -/
def getArg (args : Option PromptArgs) (key : String) : Option String :=
  args.bind (fun l => (l.find? (fun p => p.fst = key)).map Prod.snd)

namespace PromptsHandler

/-- PromptsHandler.getPrompts: the static catalogue. -/
def getPrompts : List PromptDecl :=
  [⟨"analyze_table", "Analisa uma tabela específica", ["table_name"]⟩,
   ⟨"find_large_tables", "Encontra tabelas com mais registros", []⟩,
   ⟨"database_overview", "Visão geral do banco de dados", []⟩]

/-- Body of the analyze_table template (template literal, newlines and the
indentation of its second line included). -/
def analyzeTableText (tableName : String) : String :=
  "Analise a tabela \"" ++ tableName ++ "\":\n" ++
  "              \n" ++
  "1. Descreva a estrutura da tabela\n" ++
  "2. Mostre alguns dados de exemplo \n" ++
  "3. Calcule estatísticas básicas (contagem de registros)\n" ++
  "4. Identifique possíveis problemas ou oportunidades de otimização"

/-- Body of the find_large_tables template. -/
def findLargeTablesText : String :=
  "Liste todas as tabelas do banco atual:\n" ++
  "              \n" ++
  "1. Número de registros de cada tabela\n" ++
  "2. Ordene por quantidade (maior para menor)\n" ++
  "3. Identifique as 5 maiores tabelas\n" ++
  "4. Sugira estratégias de otimização se necessário"

/-- Body of the database_overview template. -/
def databaseOverviewText : String :=
  "Visão geral completa do banco:\n" ++
  "              \n" ++
  "1. Liste todos os bancos disponíveis\n" ++
  "2. Para o banco atual, mostre todas as tabelas\n" ++
  "3. Identifique relacionamentos entre tabelas\n" ++
  "4. Sugira melhorias na estrutura"

/-- PromptsHandler.getPrompt: switch on the prompt name.  For
analyze_table the `table_name` argument is tested by truthiness (`!tableName`
throws also for the empty string).  Unknown names raise
`Prompt não encontrado: ...`.  Nothing here touches the database. -/
def getPrompt (name : String) (args : Option PromptArgs) :
    Except String PromptResult :=
  if name = "analyze_table" then
    match getArg args "table_name" with
    | none => .error "table_name é obrigatório"
    | some tableName =>
      if tableName.isEmpty then .error "table_name é obrigatório"
      else
        .ok ⟨"Análise da tabela " ++ tableName,
             [⟨"user", analyzeTableText tableName⟩]⟩
  else if name = "find_large_tables" then
    .ok ⟨"Encontrar tabelas com mais registros", [⟨"user", findLargeTablesText⟩]⟩
  else if name = "database_overview" then
    .ok ⟨"Visão geral do banco de dados", [⟨"user", databaseOverviewText⟩]⟩
  else
    .error ("Prompt não encontrado: " ++ name)

end PromptsHandler

/-- The protocol requests the claims are about (the two static catalogue
listings list-tools and list-resources are constant responses and are
omitted).  Tool arguments carry the three optional string fields the
call-tool handler reads (`args?.query`, `args?.table_name`,
`args?.database`). -/
inductive Request where
  | callTool (name : String) (query table_name database : Option String)
  | readResource (uri : String)
  | listPrompts
  | getPrompt (name : String) (args : Option PromptArgs)

/-- A response from the router: one variant per request category. -/
inductive Response where
  | tool (r : ToolResult)
  | resource (r : ResourceContents)
  | promptList (l : List PromptDecl)
  | prompt (r : PromptResult)
deriving DecidableEq, Repr

namespace MySQLMCPServer

/-- MySQLMCPServer.ensureConnection:
`if (!this.db.isConnected()) await this.db.connect()`. -/
def ensureConnection (w : World) (st : DBState) : Except String Unit × DBState :=
  match st.connection with
  | some _ => (.ok (), st)
  | none => DatabaseConnection.connect w st

/-- The CallToolRequestSchema handler: ensure the connection, dispatch on
the tool name; the surrounding try/catch renders every raised error (in
practice only the connect failure — the two tool operations catch their
own errors) as an error envelope, so this handler never raises.
JavaScript-specific branches: with `query` absent, `undefined.trim()`
raises a TypeError that the catch inside executeQuery renders; with
`table_name` absent, the sanitization regex coerces `undefined` to the
string `"undefined"`, so the call behaves as `describeTable "undefined"`. -/
def handleCallTool (w : World) (st : DBState) (name : String)
    (query table_name database : Option String) :
    Except String ToolResult × DBState × List String :=
  match ensureConnection w st with
  | (.error m, st1) =>
    (.ok (.error ("Erro ao executar " ++ name ++ ": " ++ m)), st1, [])
  | (.ok _, st1) =>
    if name = "execute_query" then
      match query with
      | some q =>
        let (r, st2, t) := ToolsHandler.executeQuery w st1 q database
        (.ok r, st2, t)
      | none =>
        (.ok (.error "Cannot read properties of undefined"),
         st1, [])
    else if name = "describe_table" then
      let (r, st2, t) :=
        ToolsHandler.describeTable w st1 (table_name.getD "undefined") database
      (.ok r, st2, t)
    else
      (.ok (.error ("Tool desconhecido: " ++ name)), st1, [])

/-- The ReadResourceRequestSchema handler: ensure the connection, dispatch
on the uri; the surrounding catch does NOT render the error — it wraps it
as `Erro ao ler resource <uri>: <message>` and raises it again, so
failures propagate out of this handler. -/
def handleReadResource (w : World) (st : DBState) (uri : String) :
    Except String ResourceContents × DBState × List String :=
  match ensureConnection w st with
  | (.error m, st1) =>
    (.error ("Erro ao ler resource " ++ uri ++ ": " ++ m), st1, [])
  | (.ok _, st1) =>
    let inner : Except String ResourceContents × DBState × List String :=
      if uri = "mysql://databases" then ResourcesHandler.getDatabases w st1
      else if uri = "mysql://tables" then ResourcesHandler.getTables w st1
      else if uri = "mysql://schema" then ResourcesHandler.getSchema w st1
      else (.error ("Resource não encontrado: " ++ uri), st1, [])
    match inner with
    | (.error m, st2, t) =>
      (.error ("Erro ao ler resource " ++ uri ++ ": " ++ m), st2, t)
    | (.ok r, st2, t) => (.ok r, st2, t)

/-- The full request dispatch of setupHandlers, with the handlers above;
the two prompt handlers are registered without try/catch, without
ensureConnection and without any reference to the database. -/
def handleRequest (w : World) (st : DBState) :
    Request → Except String Response × DBState × List String
  | .callTool name q tn db =>
    match handleCallTool w st name q tn db with
    | (.ok r, st1, t) => (.ok (.tool r), st1, t)
    | (.error m, st1, t) => (.error m, st1, t)
  | .readResource uri =>
    match handleReadResource w st uri with
    | (.ok r, st1, t) => (.ok (.resource r), st1, t)
    | (.error m, st1, t) => (.error m, st1, t)
  | .listPrompts => (.ok (.promptList PromptsHandler.getPrompts), st, [])
  | .getPrompt name args =>
    match PromptsHandler.getPrompt name args with
    | .ok r => (.ok (.prompt r), st, [])
    | .error m => (.error m, st, [])

end MySQLMCPServer

/-- A prompt-category request (list-prompts or get-prompt). -/
def Request.isPromptCategory : Request → Bool
  | .listPrompts => true
  | .getPrompt _ _ => true
  | _ => false

/-! Concrete fixtures used by witnesses and counterexamples. -/

/-- A world where connecting succeeds and every statement yields no rows. -/
def okWorld : World := ⟨.ok (), fun _ => .ok []⟩

/-- The initial, disconnected state. -/
def st0 : DBState := ⟨none, 0⟩

/-- A state holding one live connection. -/
def connSt : DBState := ⟨some 0, 1⟩

/-- A world with one table `users` having one column row. -/
def usersWorld : World :=
  ⟨.ok (), fun q =>
    if q = "SHOW TABLES" then .ok [[("Tables_in_db_demo", "users")]]
    else if q = "DESCRIBE `users`" then .ok [[("Field", "id")]]
    else .error "unknown statement"⟩

/-- A world with one table named `a-b` (a legal MySQL name once quoted,
but outside `[A-Za-z0-9_]+`) having one column row. -/
def dashWorld : World :=
  ⟨.ok (), fun q =>
    if q = "SHOW TABLES" then .ok [[("Tables_in_db_demo", "a-b")]]
    else if q = "DESCRIBE `a-b`" then .ok [[("Field", "id")]]
    else .error "unknown statement"⟩

/-! Helper lemmas on the matcher and trim combinators. -/

/-- A literal is a Boolean prefix of itself followed by anything. -/
theorem isPrefixOf_self_append (xs : List Char) : ∀ ys, xs.isPrefixOf (xs ++ ys) = true := by
  induction xs with
  | nil => intro ys; simp [List.isPrefixOf]
  | cons x xs ih => intro ys; simp [List.isPrefixOf, ih]

/-- A Boolean prefix can be split off. -/
theorem isPrefixOf_decomp (xs : List Char) :
    ∀ t, xs.isPrefixOf t = true → ∃ u, t = xs ++ u := by
  induction xs with
  | nil => intro t _; exact ⟨t, rfl⟩
  | cons x xs ih =>
    intro t h
    cases t with
    | nil => simp [List.isPrefixOf] at h
    | cons y t2 =>
      simp only [List.isPrefixOf, Bool.and_eq_true, beq_iff_eq] at h
      obtain ⟨u, hu⟩ := ih t2 h.2
      exact ⟨u, by rw [h.1, hu]; rfl⟩

/-- The unanchored search succeeds at the whole input. -/
theorem existsAt_self (p : List Char → Bool) (l : List Char) (h : p l = true) :
    existsAt p l = true := by
  cases l <;> simp [existsAt, h]

/-- The unanchored search succeeds on some suffix decomposition. -/
theorem existsAt_decomp (p : List Char → Bool) :
    ∀ l, existsAt p l = true → ∃ s t, l = s ++ t ∧ p t = true := by
  intro l
  induction l with
  | nil => intro h; exact ⟨[], [], rfl, h⟩
  | cons c r ih =>
    intro h
    rcases Bool.or_eq_true _ _ |>.mp h with h1 | h2
    · exact ⟨[], c :: r, rfl, h1⟩
    · obtain ⟨s, t, hst, hp⟩ := ih h2
      exact ⟨c :: s, t, by rw [hst]; rfl, hp⟩

/-- A literal placed anywhere in the input is found by `containsSeq`. -/
theorem containsSeq_of_append (pat : List Char) :
    ∀ (a b : List Char), containsSeq pat (a ++ pat ++ b) = true := by
  intro a b
  induction a with
  | nil =>
    exact existsAt_self _ _ (isPrefixOf_self_append pat b)
  | cons x xs ih =>
    simp only [containsSeq, existsAt, List.cons_append, Bool.or_eq_true]
    right
    exact ih

/-- Whatever `containsSeq` finds yields a decomposition of the input. -/
theorem containsSeq_decomp (pat l : List Char) (h : containsSeq pat l = true) :
    ∃ a b, l = a ++ pat ++ b := by
  obtain ⟨s, t, hst, hp⟩ := existsAt_decomp _ l h
  obtain ⟨u, hu⟩ := isPrefixOf_decomp pat t hp
  exact ⟨s, u, by rw [hst, hu, List.append_assoc]⟩

/-- dropWhile never erases a marked element the predicate rejects, nor
anything after it. -/
theorem dropWhile_keeps (p : Char → Bool) (hd : Char) (hhd : p hd = false) :
    ∀ (a t : List Char), ∃ a2, (a ++ hd :: t).dropWhile p = a2 ++ hd :: t := by
  intro a t
  induction a with
  | nil => exact ⟨[], by simp [List.dropWhile_cons, hhd]⟩
  | cons x xs ih =>
    by_cases hx : p x = true
    · obtain ⟨a2, ha2⟩ := ih
      exact ⟨a2, by simp [List.dropWhile_cons, hx]; exact ha2⟩
    · exact ⟨x :: xs, by simp [List.dropWhile_cons, hx]⟩

/-- Trimming keeps every occurrence of a non-empty whitespace-free
pattern. -/
theorem trim_containsSeq (pat l : List Char) (hne : pat ≠ [])
    (hws : ∀ c ∈ pat, isJsWS c = false)
    (h : containsSeq pat l = true) : containsSeq pat (trimList l) = true := by
  obtain ⟨a, b, rfl⟩ := containsSeq_decomp pat l h
  obtain ⟨ph, pt, rfl⟩ : ∃ ph pt, pat = ph :: pt := by
    cases pat with
    | nil => exact absurd rfl hne
    | cons ph pt => exact ⟨ph, pt, rfl⟩
  obtain ⟨a1, h1⟩ : ∃ a1,
      (a ++ (ph :: pt) ++ b).dropWhile isJsWS = a1 ++ (ph :: pt) ++ b := by
    obtain ⟨a1, h1⟩ := dropWhile_keeps isJsWS ph (hws ph (by simp)) a (pt ++ b)
    exact ⟨a1, by simpa [List.append_assoc] using h1⟩
  obtain ⟨qh, qt, hq⟩ : ∃ qh qt, (ph :: pt).reverse = qh :: qt := by
    cases hq : (ph :: pt).reverse with
    | nil => exact absurd (congrArg List.length hq) (by simp)
    | cons qh qt => exact ⟨qh, qt, rfl⟩
  have hqh : isJsWS qh = false := by
    apply hws
    have : qh ∈ (ph :: pt).reverse := by rw [hq]; exact List.mem_cons_self _ _
    exact List.mem_reverse.mp this
  have hP : ph :: pt = qt.reverse ++ [qh] := by
    have := congrArg List.reverse hq
    simpa [List.reverse_reverse, List.reverse_cons] using this
  have hrw : (a1 ++ (ph :: pt) ++ b).reverse =
      b.reverse ++ (qh :: (qt ++ a1.reverse)) := by
    rw [List.append_assoc, List.reverse_append, List.reverse_append, hq]
    simp [List.append_assoc]
  obtain ⟨b1, h2⟩ :=
    dropWhile_keeps isJsWS qh hqh b.reverse (qt ++ a1.reverse)
  have htrim : trimList (a ++ (ph :: pt) ++ b) =
      a1 ++ (ph :: pt) ++ b1.reverse := by
    unfold trimList
    rw [h1, hrw, h2]
    rw [hP]
    simp [List.reverse_append, List.reverse_cons, List.reverse_reverse,
      List.append_assoc]
  rw [htrim]
  exact containsSeq_of_append _ a1 b1.reverse

/-- `lowerChar` preserves whitespace-ness (it only moves ASCII capitals to
ASCII smalls, none of which is whitespace). -/
theorem isJsWS_lowerChar (c : Char) : isJsWS (lowerChar c) = isJsWS c := by
  unfold lowerChar
  split <;> rfl

/-- dropWhile with the whitespace predicate commutes with lower-folding. -/
theorem dropWhile_ws_map_lower (l : List Char) :
    (l.map lowerChar).dropWhile isJsWS = (l.dropWhile isJsWS).map lowerChar := by
  induction l with
  | nil => rfl
  | cons c r ih =>
    by_cases hc : isJsWS c = true
    · simp [List.dropWhile_cons, isJsWS_lowerChar, hc, ih]
    · simp [List.dropWhile_cons, isJsWS_lowerChar, hc]

/-- Trimming commutes with lower-folding. -/
theorem trimList_map_lower (l : List Char) :
    trimList (l.map lowerChar) = (trimList l).map lowerChar := by
  unfold trimList
  rw [dropWhile_ws_map_lower]
  rw [← List.map_reverse, dropWhile_ws_map_lower, ← List.map_reverse]

/-- execute leaves the connection state untouched. -/
theorem execute_state (w : World) (st : DBState) (q : String) :
    (DatabaseConnection.execute w st q).2.1 = st := by
  unfold DatabaseConnection.execute
  cases st.connection <;> rfl

/-- execute on a live connection forwards to the driver and records the
statement. -/
theorem execute_connected (w : World) (st : DBState) (q : String) (c : Nat)
    (h : st.connection = some c) :
    DatabaseConnection.execute w st q = (w.exec q, st, [q]) := by
  unfold DatabaseConnection.execute
  rw [h]

/-! Claim theorems. -/

/-- C6: connect() is idempotent — with a live connection it is a no-op
(same state, no error, nothing created); after two successive successful
connect() calls the second is a no-op, a connection is live, and (when
starting disconnected) exactly one driver connection was created in
total. -/
theorem connect_idempotent (w : World) (st : DBState) :
    (∀ c, st.connection = some c → DatabaseConnection.connect w st = (.ok (), st)) ∧
    (∀ st1, DatabaseConnection.connect w st = (.ok (), st1) →
      DatabaseConnection.connect w st1 = (.ok (), st1) ∧
      st1.connection.isSome = true ∧
      (st.connection = none → st1.created = st.created + 1)) := by
  constructor
  · intro c hc
    simp [DatabaseConnection.connect, hc]
  · intro st1 h1
    rcases hconn : st.connection with _ | c
    · rcases hres : w.connectResult with em | u
      · simp [DatabaseConnection.connect, hconn, hres] at h1
      · simp only [DatabaseConnection.connect, hconn, hres, Prod.mk.injEq,
          true_and] at h1
        subst h1
        exact ⟨by simp [DatabaseConnection.connect], rfl, fun _ => rfl⟩
    · simp only [DatabaseConnection.connect, hconn, Prod.mk.injEq,
        true_and] at h1
      subst h1
      refine ⟨by simp [DatabaseConnection.connect, hconn],
        by simp [hconn], ?_⟩
      intro hn
      exact absurd hn (by simp)

/-- C6 witness: starting disconnected with a successful driver, the first
connect yields the connected state and the second is a no-op with exactly
one connection created. -/
theorem connect_idempotent_witness :
    DatabaseConnection.connect okWorld connSt = (.ok (), connSt) ∧
    connSt.connection.isSome = true ∧
    (st0.connection = none → connSt.created = st0.created + 1) :=
  (connect_idempotent okWorld st0).2 connSt rfl

/-- C7: an unknown prompt name makes getPrompt raise
`Prompt não encontrado`, and analyze_table without a table_name argument
makes it raise `table_name é obrigatório`; both errors propagate out of the
get-prompt request handler (which is registered without any catch) instead
of being rendered as an envelope. -/
theorem prompt_errors_propagate (w : World) (st : DBState) (name : String)
    (args : Option PromptArgs) :
    (name ≠ "analyze_table" → name ≠ "find_large_tables" →
      name ≠ "database_overview" →
      PromptsHandler.getPrompt name args =
        .error ("Prompt não encontrado: " ++ name) ∧
      (MySQLMCPServer.handleRequest w st (.getPrompt name args)).1 =
        .error ("Prompt não encontrado: " ++ name)) ∧
    (getArg args "table_name" = none →
      PromptsHandler.getPrompt "analyze_table" args =
        .error "table_name é obrigatório" ∧
      (MySQLMCPServer.handleRequest w st (.getPrompt "analyze_table" args)).1 =
        .error "table_name é obrigatório") := by
  constructor
  · intro h1 h2 h3
    have hg : PromptsHandler.getPrompt name args =
        .error ("Prompt não encontrado: " ++ name) := by
      simp [PromptsHandler.getPrompt, h1, h2, h3]
    exact ⟨hg, by simp [MySQLMCPServer.handleRequest, hg]⟩
  · intro h
    have hg : PromptsHandler.getPrompt "analyze_table" args =
        .error "table_name é obrigatório" := by
      simp [PromptsHandler.getPrompt, h]
    exact ⟨hg, by simp [MySQLMCPServer.handleRequest, hg]⟩

/-- C7 witness: the unknown prompt `bogus` and an argument-less
analyze_table call both surface as raised errors at the router. -/
theorem prompt_errors_propagate_witness :
    (MySQLMCPServer.handleRequest okWorld st0 (.getPrompt "bogus" none)).1 =
      .error ("Prompt não encontrado: " ++ "bogus") ∧
    (MySQLMCPServer.handleRequest okWorld st0 (.getPrompt "analyze_table" none)).1 =
      .error "table_name é obrigatório" :=
  ⟨((prompt_errors_propagate okWorld st0 "bogus" none).1
      (by decide) (by decide) (by decide)).2,
   ((prompt_errors_propagate okWorld st0 "analyze_table" none).2 rfl).2⟩

/-- C8: prompt-category requests (list-prompts and get-prompt) leave the
connection state unchanged (including the created-connections count), send
no statement to the database, and produce a result independent of the
driver oracle and of the connection state. -/
theorem prompt_requests_pure (w w2 : World) (st st2 : DBState) (r : Request)
    (h : r.isPromptCategory = true) :
    (MySQLMCPServer.handleRequest w st r).2.1 = st ∧
    (MySQLMCPServer.handleRequest w st r).2.2 = [] ∧
    (MySQLMCPServer.handleRequest w st r).1 =
      (MySQLMCPServer.handleRequest w2 st2 r).1 := by
  cases r with
  | callTool name q tn db => simp [Request.isPromptCategory] at h
  | readResource uri => simp [Request.isPromptCategory] at h
  | listPrompts => exact ⟨rfl, rfl, rfl⟩
  | getPrompt name args =>
    refine ⟨?_, ?_, ?_⟩ <;>
      simp only [MySQLMCPServer.handleRequest] <;>
      cases PromptsHandler.getPrompt name args <;> rfl

/-- C8 witness: a list-prompts request on a fresh state against one oracle
behaves exactly as against another oracle and state. -/
theorem prompt_requests_pure_witness :
    (MySQLMCPServer.handleRequest okWorld st0 .listPrompts).2.1 = st0 ∧
    (MySQLMCPServer.handleRequest okWorld st0 .listPrompts).2.2 = [] ∧
    (MySQLMCPServer.handleRequest okWorld st0 .listPrompts).1 =
      (MySQLMCPServer.handleRequest dashWorld connSt .listPrompts).1 :=
  prompt_requests_pure okWorld dashWorld st0 connSt .listPrompts rfl

/-- C10: getPrompt tests table_name by truthiness, so an empty-string
table_name raises the same missing-argument error as an absent one. -/
theorem analyze_table_empty_arg :
    PromptsHandler.getPrompt "analyze_table" (some [("table_name", "")]) =
      .error "table_name é obrigatório" ∧
    PromptsHandler.getPrompt "analyze_table" none =
      .error "table_name é obrigatório" := by
  constructor <;> rfl

/-- C1 counterexample: a read-resource request with an unrecognized
identifier does NOT come back as an error envelope — the catch in the handler
wraps the failure and raises it again, so it propagates as a
transport-level fault (an `Except.error` leaving the handler). -/
theorem resource_read_error_propagates_cex :
    (MySQLMCPServer.handleRequest okWorld st0 (.readResource "mysql://bogus")).1 =
      .error "Erro ao ler resource mysql://bogus: Resource não encontrado: mysql://bogus" := by
  rfl

/-- C1 amended: tool-call requests catch every failure and always return a
response envelope (the handler never raises); resource-read requests catch
failures but wrap and re-raise them prefixed with the resource uri, so for
them either a contents envelope is returned or a fault propagates. -/
theorem tool_envelope_resource_raise (w : World) (st : DBState) :
    (∀ name query table_name database, ∃ r,
      (MySQLMCPServer.handleRequest w st
        (.callTool name query table_name database)).1 = .ok (.tool r)) ∧
    (∀ uri,
      (∃ r, (MySQLMCPServer.handleRequest w st (.readResource uri)).1 =
        .ok (.resource r)) ∨
      (∃ m, (MySQLMCPServer.handleRequest w st (.readResource uri)).1 =
        .error ("Erro ao ler resource " ++ uri ++ ": " ++ m))) := by
  constructor
  · intro name query table_name database
    have hok : ∃ r st2 t, MySQLMCPServer.handleCallTool w st name
        query table_name database = (.ok r, st2, t) := by
      unfold MySQLMCPServer.handleCallTool
      rcases h : MySQLMCPServer.ensureConnection w st with ⟨res, st1⟩
      rcases res with m | u
      · exact ⟨_, _, _, rfl⟩
      · dsimp only
        split
        · rcases query with _ | q
          · exact ⟨_, _, _, rfl⟩
          · rcases hx : ToolsHandler.executeQuery w st1 q database with ⟨r, st2, t⟩
            exact ⟨_, _, _, rfl⟩
        · split
          · rcases hx : ToolsHandler.describeTable w st1
                (table_name.getD "undefined") database with ⟨r, st2, t⟩
            exact ⟨_, _, _, rfl⟩
          · exact ⟨_, _, _, rfl⟩
    obtain ⟨r, st2, t, hr⟩ := hok
    exact ⟨r, by simp [MySQLMCPServer.handleRequest, hr]⟩
  · intro uri
    unfold MySQLMCPServer.handleRequest MySQLMCPServer.handleReadResource
    rcases h : MySQLMCPServer.ensureConnection w st with ⟨res, st1⟩
    rcases res with m | u
    · exact Or.inr ⟨m, rfl⟩
    · dsimp only
      rcases hi : (if uri = "mysql://databases" then
          ResourcesHandler.getDatabases w st1
        else if uri = "mysql://tables" then ResourcesHandler.getTables w st1
        else if uri = "mysql://schema" then ResourcesHandler.getSchema w st1
        else (.error ("Resource não encontrado: " ++ uri), st1, []))
        with ⟨ri, st2, t⟩
      rcases ri with m | r
      · exact Or.inr ⟨m, rfl⟩
      · exact Or.inl ⟨r, rfl⟩

/-- C2 counterexample: a database name containing `-` (outside
`[A-Za-z0-9_]`) is interpolated unvalidated by useDatabase into the `USE`
statement, which is built and sent to the database. -/
theorem useDatabase_no_validation_cex :
    ("bad-db".toList.all isIdentChar = false) ∧
    containsSeq "bad-db".toList ("USE `bad-db`").toList = true ∧
    ToolsHandler.executeQuery okWorld connSt "SELECT 1" (some "bad-db") =
      (.queryResult "SELECT 1" [], connSt, ["USE `bad-db`", "SELECT 1"]) := by
  refine ⟨by decide, by decide, ?_⟩
  rfl

/-- C2 amended: only the table name is validated — describeTable rejects a
table name containing a character outside `[A-Za-z0-9_]` before building
any statement (not even the database switch is sent); database names passed
to useDatabase are interpolated without validation. -/
theorem describeTable_rejects_invalid_table_name (w : World) (st : DBState)
    (tableName : String) (database : Option String)
    (h : tableName.toList.all isIdentChar = false) :
    ToolsHandler.describeTable w st tableName database =
      (.error "Nome de tabela inválido", st, []) := by
  have hs : QueryValidator.sanitizeTableName tableName =
      .error "Nome de tabela inválido" := by
    unfold QueryValidator.sanitizeTableName
    rw [h]
    simp
  unfold ToolsHandler.describeTable
  rw [hs]

/-- C2 amended witness: `orders;DROP` is rejected before any statement even
when a database switch was requested. -/
theorem describeTable_rejects_invalid_table_name_witness :
    ToolsHandler.describeTable okWorld connSt "orders;DROP" (some "shop") =
      (.error "Nome de tabela inválido", connSt, []) :=
  describeTable_rejects_invalid_table_name okWorld connSt "orders;DROP"
    (some "shop") (by decide)

/-- C4 counterexample: the empty string vacuously has every character in
`[A-Za-z0-9_]`, yet sanitizeTableName rejects it (the regex requires at
least one character). -/
theorem sanitizeTableName_empty_cex :
    (("" : String).toList.all isIdentChar = true) ∧
    QueryValidator.sanitizeTableName "" = .error "Nome de tabela inválido" := by
  exact ⟨rfl, rfl⟩

/-- C4 amended: sanitizeTableName returns its input unchanged exactly when
the input is non-empty and every character is alphanumeric or underscore;
otherwise (including the empty string) it fails with the
invalid-identifier error; it never applies an escaping transformation. -/
theorem sanitizeTableName_charwise (s : String) :
    (QueryValidator.sanitizeTableName s = .ok s ↔
      s.toList ≠ [] ∧ s.toList.all isIdentChar = true) ∧
    (∀ t, QueryValidator.sanitizeTableName s = .ok t → t = s) ∧
    (s.toList.all isIdentChar = false ∨ s.toList = [] →
      QueryValidator.sanitizeTableName s =
        .error "Nome de tabela inválido") := by
  have hiff : (!s.toList.isEmpty && s.toList.all isIdentChar) = true ↔
      (s.toList ≠ [] ∧ s.toList.all isIdentChar = true) := by
    rw [Bool.and_eq_true, Bool.not_eq_true', List.isEmpty_eq_false]
  by_cases hc : (!s.toList.isEmpty && s.toList.all isIdentChar) = true
  · have hres : QueryValidator.sanitizeTableName s = .ok s := by
      unfold QueryValidator.sanitizeTableName
      rw [hc]
      simp
    obtain ⟨hne, hall⟩ := hiff.mp hc
    refine ⟨⟨fun _ => ⟨hne, hall⟩, fun _ => hres⟩, ?_, ?_⟩
    · intro t ht
      rw [hres] at ht
      injection ht with h
      exact h.symm
    · intro hcase
      exfalso
      rcases hcase with hf | he
      · rw [hall] at hf; cases hf
      · exact hne he
  · have hres : QueryValidator.sanitizeTableName s =
        .error "Nome de tabela inválido" := by
      unfold QueryValidator.sanitizeTableName
      rw [Bool.eq_false_iff.mpr hc]
      simp
    refine ⟨?_, ?_, fun _ => hres⟩
    · rw [hres]
      constructor
      · intro h
        exact absurd h (by simp)
      · intro hand
        exact absurd (hiff.mpr hand) hc
    · intro t ht
      rw [hres] at ht
      cases ht

/-- C4 amended witness: a well-formed identifier passes through
unchanged. -/
theorem sanitizeTableName_charwise_witness :
    QueryValidator.sanitizeTableName "users" = .ok "users" :=
  (sanitizeTableName_charwise "users").1.mpr ⟨by decide, by decide⟩

/-- C3: when the trimmed query matches a deny-list pattern
(case-insensitively), or the query trims to nothing, executeQuery returns
an error envelope, the state is unchanged, and no statement (neither the
database switch nor the query) reaches the database. -/
theorem executeQuery_denylist_blocks (w : World) (st : DBState) (q : String)
    (database : Option String)
    (h : dangerousMatch ((trimList q.toList).map lowerChar) = true ∨
      trimList q.toList = []) :
    ∃ m, ToolsHandler.executeQuery w st q database = (.error m, st, []) := by
  have hv : ∃ m, QueryValidator.validate q = .error m := by
    rcases h with hd | he
    · have hne2 : (trimList q.toList).isEmpty = false := by
        cases hE : trimList q.toList
        · rw [hE] at hd
          exact absurd hd (by decide)
        · rfl
      refine ⟨"Query contém operações potencialmente perigosas", ?_⟩
      simp only [QueryValidator.validate]
      rw [hd, hne2]
      simp
    · refine ⟨"Query não pode estar vazia", ?_⟩
      have hE2 : (trimList q.toList).isEmpty = true := List.isEmpty_iff.mpr he
      simp only [QueryValidator.validate]
      rw [hE2]
      simp
  obtain ⟨m, hm⟩ := hv
  refine ⟨m, ?_⟩
  unfold ToolsHandler.executeQuery
  rw [hm]

/-- C3 witness: `DROP TABLE users` (with a database switch requested) is
rejected with nothing sent. -/
theorem executeQuery_denylist_blocks_witness :
    ∃ m, ToolsHandler.executeQuery okWorld connSt "DROP TABLE users"
      (some "shop") = (.error m, connSt, []) :=
  executeQuery_denylist_blocks okWorld connSt "DROP TABLE users"
    (some "shop") (Or.inl (by decide))

/-- C9: the TRUNCATE deny-list entry is a bare substring match — any query
containing `truncate` in any letter case anywhere (for example a SELECT
using the MySQL TRUNCATE() numeric function) is rejected by validate with
the unsafe-query error. -/
theorem truncate_substring_rejected (q : String)
    (h : containsSeq "truncate".toList (q.toList.map lowerChar) = true) :
    QueryValidator.validate q =
      .error "Query contém operações potencialmente perigosas" := by
  have h2 : containsSeq "truncate".toList
      (trimList (q.toList.map lowerChar)) = true :=
    trim_containsSeq _ _ (by decide) (by decide) h
  have h3 : containsSeq "truncate".toList
      ((trimList q.toList).map lowerChar) = true := by
    rw [← trimList_map_lower]
    exact h2
  have hd : dangerousMatch ((trimList q.toList).map lowerChar) = true := by
    unfold dangerousMatch
    rw [h3]
    simp
  have hne2 : (trimList q.toList).isEmpty = false := by
    cases hE : trimList q.toList
    · rw [hE] at h3
      exact absurd h3 (by decide)
    · rfl
  simp only [QueryValidator.validate]
  rw [hd, hne2]
  simp

/-- C9 witness: a read-only SELECT calling the TRUNCATE() numeric function
is rejected. -/
theorem truncate_substring_rejected_witness :
    QueryValidator.validate "SELECT TRUNCATE(price, 2) FROM items" =
      .error "Query contém operações potencialmente perigosas" :=
  truncate_substring_rejected "SELECT TRUNCATE(price, 2) FROM items"
    (by decide)

/-- On success, the schema loop leaves the state unchanged, records exactly
the listed table names in order, and each recorded column list is the
driver answer to the corresponding DESCRIBE statement. -/
theorem getSchemaLoop_ok (w : World) :
    ∀ (rows : List Row) (st : DBState) (ts : List (String × List Row))
      (st2 : DBState) (tr : List String),
      ResourcesHandler.getSchemaLoop w st rows = (.ok ts, st2, tr) →
      st2 = st ∧ ts.map Prod.fst = rows.map firstValStr ∧
      ∀ p ∈ ts, w.exec ("DESCRIBE `" ++ p.1 ++ "`") = .ok p.2 := by
  intro rows
  induction rows with
  | nil =>
    intro st ts st2 tr h
    simp only [ResourcesHandler.getSchemaLoop, Prod.mk.injEq,
      Except.ok.injEq] at h
    obtain ⟨h1, h2, h3⟩ := h
    subst h1
    subst h2
    simp
  | cons table rest ih =>
    intro st ts st2 tr h
    simp only [ResourcesHandler.getSchemaLoop] at h
    rcases hE : DatabaseConnection.execute w st
        ("DESCRIBE `" ++ firstValStr table ++ "`") with ⟨res, st1, t⟩
    rw [hE] at h
    rcases res with m | columns
    · simp at h
    · have hst1 : st = st1 := by
        have hx := execute_state w st ("DESCRIBE `" ++ firstValStr table ++ "`")
        rw [hE] at hx
        exact hx.symm
      subst hst1
      have hexec : w.exec ("DESCRIBE `" ++ firstValStr table ++ "`") =
          .ok columns := by
        rcases hc : st.connection with _ | c
        · unfold DatabaseConnection.execute at hE
          rw [hc] at hE
          simp at hE
        · rw [execute_connected w st _ c hc] at hE
          have hx := congrArg (fun x => x.1) hE
          simpa using hx
      dsimp only at h
      rcases hL : ResourcesHandler.getSchemaLoop w st rest with ⟨res2, st3, t2⟩
      rw [hL] at h
      rcases res2 with m | tl
      · simp at h
      · simp only [Prod.mk.injEq, Except.ok.injEq] at h
        obtain ⟨hts, hst2, htr⟩ := h
        obtain ⟨hst3, hmap, hall⟩ := ih st tl st3 t2 hL
        subst hts
        subst hst3
        subst hst2
        refine ⟨rfl, by simp [hmap], ?_⟩
        intro p hp
        rcases List.mem_cons.mp hp with hp1 | hp2
        · subst hp1
          exact hexec
        · exact hall p hp2

/-- C5 counterexample: with a fixed database containing a table named
`a-b`, getSchema records the DESCRIBE rows of that table, while describeTable on
the very same name returns the invalid-identifier error envelope (sending
nothing) — not those column rows. -/
theorem getSchema_describeTable_mismatch_cex :
    ResourcesHandler.getSchema dashWorld connSt =
      (.ok ⟨"mysql://schema", .schema [("a-b", [[("Field", "id")]])]⟩, connSt,
       ["SHOW TABLES", "DESCRIBE `a-b`"]) ∧
    ToolsHandler.describeTable dashWorld connSt "a-b" none =
      (.error "Nome de tabela inválido", connSt, []) ∧
    ToolsHandler.describeTable dashWorld connSt "a-b" none ≠
      (.tableStructure "a-b" [[("Field", "id")]], connSt,
       ["DESCRIBE `a-b`"]) := by
  refine ⟨rfl, rfl, ?_⟩
  decide

/-- C5 amended: with the database fixed and a live connection, the getSchema
recorded table-name list equals (in order) the names carried by the rows
getTables returns; and each recorded column list equals what describeTable
returns for that table PROVIDED the table name is a valid identifier
(non-empty, all characters in `[A-Za-z0-9_]`) — for other names
describeTable rejects while getSchema still records the DESCRIBE result. -/
theorem getSchema_roundtrip (w : World) (st : DBState) (c : Nat)
    (hc : st.connection = some c)
    (rows : List Row) (hrows : w.exec "SHOW TABLES" = .ok rows)
    (ts : List (String × List Row)) (st2 : DBState) (tr : List String)
    (hs : ResourcesHandler.getSchema w st =
      (.ok ⟨"mysql://schema", .schema ts⟩, st2, tr)) :
    ResourcesHandler.getTables w st =
      (.ok ⟨"mysql://tables", .rows rows⟩, st, ["SHOW TABLES"]) ∧
    ts.map Prod.fst = rows.map firstValStr ∧
    ∀ p ∈ ts, p.1.toList ≠ [] → p.1.toList.all isIdentChar = true →
      ToolsHandler.describeTable w st p.1 none =
        (.tableStructure p.1 p.2, st, ["DESCRIBE `" ++ p.1 ++ "`"]) := by
  have hexecT := execute_connected w st "SHOW TABLES" c hc
  have hTables : ResourcesHandler.getTables w st =
      (.ok ⟨"mysql://tables", .rows rows⟩, st, ["SHOW TABLES"]) := by
    unfold ResourcesHandler.getTables
    rw [hexecT, hrows]
  have hstep : ResourcesHandler.getSchema w st =
      (match ResourcesHandler.getSchemaLoop w st rows with
       | (.error m, st4, t2) => (.error m, st4, ["SHOW TABLES"] ++ t2)
       | (.ok ts2, st4, t2) =>
         (.ok ⟨"mysql://schema", .schema ts2⟩, st4,
          ["SHOW TABLES"] ++ t2)) := by
    unfold ResourcesHandler.getSchema
    rw [hexecT, hrows]
  rw [hstep] at hs
  rcases hL : ResourcesHandler.getSchemaLoop w st rows with ⟨res2, st3, t2⟩
  rw [hL] at hs
  rcases res2 with m | tl
  · simp at hs
  · simp only [Prod.mk.injEq, Except.ok.injEq, ResourceContents.mk.injEq,
      ResourcePayload.schema.injEq] at hs
    obtain ⟨⟨_, hts⟩, hst3, htr⟩ := hs
    subst hts
    obtain ⟨hst, hmap, hall⟩ := getSchemaLoop_ok w rows st tl st3 t2 hL
    refine ⟨hTables, hmap, ?_⟩
    intro p hp hne hallc
    have hcond : (!p.1.toList.isEmpty && p.1.toList.all isIdentChar) = true := by
      rw [Bool.and_eq_true, Bool.not_eq_true', List.isEmpty_eq_false]
      exact ⟨hne, hallc⟩
    have hsan : QueryValidator.sanitizeTableName p.1 = .ok p.1 := by
      unfold QueryValidator.sanitizeTableName
      rw [hcond]
      simp
    have hex := hall p hp
    unfold ToolsHandler.describeTable
    rw [hsan]
    have hmu : maybeUseDatabase w st none = (.ok (), st, []) := rfl
    rw [hmu]
    dsimp only
    rw [execute_connected w st ("DESCRIBE `" ++ p.1 ++ "`") c hc, hex]
    simp

/-- C5 amended witness: on a database with the single table `users`, the
recorded name list matches getTables and describeTable returns exactly the
recorded columns. -/
theorem getSchema_roundtrip_witness :
    ResourcesHandler.getTables usersWorld connSt =
      (.ok ⟨"mysql://tables", .rows [[("Tables_in_db_demo", "users")]]⟩,
       connSt, ["SHOW TABLES"]) ∧
    ([("users", [[("Field", "id")]])].map Prod.fst =
      [[("Tables_in_db_demo", "users")]].map firstValStr) ∧
    ToolsHandler.describeTable usersWorld connSt "users" none =
      (.tableStructure "users" [[("Field", "id")]], connSt,
       ["DESCRIBE `users`"]) := by
  have h := getSchema_roundtrip usersWorld connSt 0 rfl
    [[("Tables_in_db_demo", "users")]] rfl
    [("users", [[("Field", "id")]])] connSt
    ["SHOW TABLES", "DESCRIBE `users`"] rfl
  exact ⟨h.1, h.2.1,
    h.2.2 ("users", [[("Field", "id")]]) (by simp) (by decide) (by decide)⟩

end MCP
